import Mathlib

/-!
Verification of the MLS-MPM simulation core of mlsmpm-particles-rs.

The Rust source is shallowly embedded here.  2D vectors and 2x2 matrices
(bevy/glam `Vec2`, `Mat2`) are embedded as structures over an arbitrary
field; the simulation claims are settled at the exact field ℚ (the
algorithmic/algebraic content of the f32 code), and the logarithm-base
claim at ℝ, with the logarithm passed as an explicit function parameter
so that the source's `f32::log10` and the spec's natural log can both be
instantiated.

Machine-integer details that matter are modelled explicitly:
`u32`/`usize` casts of floats truncate (saturating at 0 for negatives),
and the `i32 as usize` cast in neighbor indexing wraps modulo 2^64.
-/

namespace MlsMpm

/-- 2D vector (bevy/glam `Vec2`), over an arbitrary field instead of f32. -/
structure Vec2 (α : Type) where
  x : α
  y : α
  deriving DecidableEq, Repr

/-- Column-major 2x2 matrix (bevy/glam `Mat2`): `x_axis`, `y_axis` are the columns. -/
structure Mat2 (α : Type) where
  x_axis : Vec2 α
  y_axis : Vec2 α
  deriving DecidableEq, Repr

variable {α : Type} [LinearOrderedField α]

def Vec2.zero : Vec2 α := ⟨0, 0⟩

def Vec2.add (a b : Vec2 α) : Vec2 α := ⟨a.x + b.x, a.y + b.y⟩

def Vec2.sub (a b : Vec2 α) : Vec2 α := ⟨a.x - b.x, a.y - b.y⟩

/-- Scalar multiplication, glam's `Vec2 * f32`. -/
def Vec2.smul (a : Vec2 α) (s : α) : Vec2 α := ⟨a.x * s, a.y * s⟩

def Mat2.zero : Mat2 α := ⟨Vec2.zero, Vec2.zero⟩

/-- `Mat2::IDENTITY`. -/
def Mat2.identity : Mat2 α := ⟨⟨1, 0⟩, ⟨0, 1⟩⟩

def Mat2.add (a b : Mat2 α) : Mat2 α := ⟨a.x_axis.add b.x_axis, a.y_axis.add b.y_axis⟩

def Mat2.sub (a b : Mat2 α) : Mat2 α := ⟨a.x_axis.sub b.x_axis, a.y_axis.sub b.y_axis⟩

/-- Scalar multiplication, glam's `Mat2 * f32` (also `mul_scalar`). -/
def Mat2.smul (a : Mat2 α) (s : α) : Mat2 α := ⟨a.x_axis.smul s, a.y_axis.smul s⟩

/-- glam `Mat2::mul_vec2`: matrix-vector product (columns weighted by the
vector's components). -/
def Mat2.mul_vec2 (a : Mat2 α) (v : Vec2 α) : Vec2 α :=
  (a.x_axis.smul v.x).add (a.y_axis.smul v.y)

/-- glam `Mat2::mul_mat2`: matrix product `a * b`, column by column. -/
def Mat2.mul_mat2 (a b : Mat2 α) : Mat2 α :=
  ⟨a.mul_vec2 b.x_axis, a.mul_vec2 b.y_axis⟩

/-- glam `Mat2::transpose`. -/
def Mat2.transpose (a : Mat2 α) : Mat2 α :=
  ⟨⟨a.x_axis.x, a.y_axis.x⟩, ⟨a.x_axis.y, a.y_axis.y⟩⟩

/-- glam `Mat2::determinant`. -/
def Mat2.determinant (a : Mat2 α) : α :=
  a.x_axis.x * a.y_axis.y - a.x_axis.y * a.y_axis.x

/-- glam `Mat2::inverse`: adjugate over determinant.  (For a singular matrix
glam produces non-finite f32 entries; over a field, division by the zero
determinant yields junk in the same way — no theorem below uses that case.) -/
def Mat2.inverse (a : Mat2 α) : Mat2 α :=
  let inv_det := 1 / a.determinant
  ⟨⟨a.y_axis.y * inv_det, -a.x_axis.y * inv_det⟩,
   ⟨-a.y_axis.x * inv_det, a.x_axis.x * inv_det⟩⟩

/-- Grid cell (src/grid.rs lines 4-8). -/
structure Cell (α : Type) where
  velocity : Vec2 α
  mass : α
  deriving DecidableEq, Repr

/-- MPM grid resource (src/grid.rs lines 11-15). -/
structure Grid (α : Type) where
  cells : List (Cell α)
  width : ℕ
  deriving DecidableEq, Repr

/-- `Grid::new(width)` (src/grid.rs lines 18-29): `width * width` zeroed cells,
no validation of the width argument. -/
def Grid.new (width : ℕ) : Grid α :=
  { cells := List.replicate (width * width) { velocity := Vec2.zero, mass := 0 }
    width := width }

/-- `Grid::index_at(x, y)` (src/grid.rs lines 31-33). -/
def Grid.index_at (g : Grid α) (x y : ℕ) : ℕ :=
  x * g.width + y

/-- `Grid::reset` (src/grid.rs lines 35-40): zero every cell in place. -/
def Grid.reset (g : Grid α) : Grid α :=
  { g with cells := g.cells.map fun _ => { velocity := Vec2.zero, mass := 0 } }

instance : Inhabited (Cell α) := ⟨{ velocity := Vec2.zero, mass := 0 }⟩

/-- World/time state (src/world.rs lines 7-12). -/
structure WorldState (α : Type) where
  dt : α
  gravity : α
  gravity_enabled : Bool
  current_tick : ℕ
  deriving DecidableEq, Repr

/-- `WorldState::new(dt, gravity, gravity_enabled)` (src/world.rs lines 19-26):
fields are stored as given, `current_tick` starts at 0, no validation of `dt`. -/
def WorldState.new (dt gravity : α) (gravity_enabled : Bool) : WorldState α :=
  { dt := dt, gravity := gravity, gravity_enabled := gravity_enabled, current_tick := 0 }

/-- `WorldState::toggle_gravity` (src/world.rs lines 15-17). -/
def WorldState.toggle_gravity (w : WorldState α) : WorldState α :=
  { w with gravity_enabled := !w.gravity_enabled }

/-- `WorldState::update` (src/world.rs lines 37-39): increment the tick counter. -/
def WorldState.update (w : WorldState α) : WorldState α :=
  { w with current_tick := w.current_tick + 1 }

/-- Modelled from the spec: §7 demands that a zero (or negative) grid width be
rejected at construction time.  No such validating constructor exists in the
source (`Grid::new` in src/grid.rs performs no checks); this definition follows
the spec's words, for comparison with `Grid.new`. -/
def Grid.new_validated (width : ℕ) : Option (Grid α) :=
  if width = 0 then none else some (Grid.new width)

/-- Modelled from the spec: §7 demands that a zero dt be rejected at
construction time.  No such validating constructor exists in the source
(`WorldState::new` in src/world.rs performs no checks); this definition follows
the spec's words, for comparison with `WorldState.new`. -/
def WorldState.new_validated (dt gravity : α) (gravity_enabled : Bool) :
    Option (WorldState α) :=
  if dt = 0 then none else some (WorldState.new dt gravity gravity_enabled)

/-- Wrapping usize subtraction with release-mode overflow semantics, written
with an explicit modulus.  `Grid::update` computes `self.width - 3` on usize;
for `3 ≤ width < 2^64` this is ordinary subtraction. -/
def usize_sub (a b : ℕ) : ℕ :=
  (a + 2 ^ 64 - b) % 2 ^ 64

lemma usize_sub_three_eq (a : ℕ) (h3 : 3 ≤ a) (h64 : a < 2 ^ 64) :
    usize_sub a 3 = a - 3 := by
  unfold usize_sub
  omega

/-- One sequential boundary check of `Grid::update` (src/grid.rs lines 52-75):
if the cell is in the low band, zero a negative component; then if it is in the
high band, zero a positive component. -/
def boundary_code (lo hi : Prop) [Decidable lo] [Decidable hi] (v : α) : α :=
  let v1 := if lo ∧ v < 0 then 0 else v
  if hi ∧ 0 < v1 then 0 else v1

/-- Per-cell body of `Grid::update` (src/grid.rs lines 43-76): cells with
positive mass have momentum converted to velocity, gravity applied to the y
component, and the wall bands clamped; other cells are untouched. -/
def updateCell (width : ℕ) (dt gravity : α) (i : ℕ) (cell : Cell α) : Cell α :=
  if 0 < cell.mass then
    let v := cell.velocity.smul (1 / cell.mass)
    let v : Vec2 α := ⟨v.x, v.y + dt * gravity⟩
    let x := i / width
    let y := i % width
    { velocity := ⟨boundary_code (x < 2) (usize_sub width 3 < x) v.x,
                   boundary_code (y < 2) (usize_sub width 3 < y) v.y⟩
      mass := cell.mass }
  else cell

/-- The enumerated iteration of `Grid::update` over `cells`, starting at
index `s`. -/
def updateCellsFrom (width : ℕ) (dt gravity : α) : ℕ → List (Cell α) → List (Cell α)
  | _, [] => []
  | s, c :: rest => updateCell width dt gravity s c :: updateCellsFrom width dt gravity (s + 1) rest

/-- `Grid::update(dt, gravity)` (src/grid.rs lines 42-78). -/
def Grid.update (g : Grid α) (dt gravity : α) : Grid α :=
  { g with cells := updateCellsFrom g.width dt gravity 0 g.cells }

/-- Description of one boundary check following the claim's words: the
component pointing toward the wall is zeroed, inward components unchanged. -/
def boundary_desc (lo hi : Prop) [Decidable lo] [Decidable hi] (v : α) : α :=
  let v1 := if lo then max v 0 else v
  if hi then min v1 0 else v1

/-- Wall rule as claim C7 words it: for the two innermost rows/columns adjacent
to each of the four domain edges, zero the velocity component pointing toward
that wall. -/
def wall_rule_desc (width i : ℕ) (v : Vec2 α) : Vec2 α :=
  let x := i / width
  let y := i % width
  ⟨boundary_desc (x ≤ 1) (width - 2 ≤ x) v.x,
   boundary_desc (y ≤ 1) (width - 2 ≤ y) v.y⟩

/-- Entity age data (src/components.rs: `CreatedAt`, `MaxAge`). -/
structure AgedEntity where
  created_at : ℕ
  max_age : ℕ
  deriving DecidableEq, Repr

/-- `delete_old_entities` (src/expire_old.rs lines 6-16): despawn every entity
with `current_tick > created_at + max_age`; the survivors are returned. -/
def delete_old_entities (current_tick : ℕ) (entities : List AgedEntity) : List AgedEntity :=
  entities.filter fun e => !(decide (e.created_at + e.max_age < current_tick))

/-- Per-particle body of `update_deformation_gradients`
(src/step_update_deformations.rs lines 22-26):
`(I + dt * affine_momentum) * F_old`, with the product in that order. -/
def update_deformation_gradient (dt : α) (affine_momentum deformation_gradient : Mat2 α) :
    Mat2 α :=
  (Mat2.identity.add (affine_momentum.smul dt)).mul_mat2 deformation_gradient

/-- `quadratic_interpolation_weights(cell_diff)` (src/grid.rs lines 85-100). -/
def quadratic_interpolation_weights (cell_diff : Vec2 α) : Fin 3 → Vec2 α :=
  ![⟨(1/2 : α) * ((1/2 : α) - cell_diff.x) ^ 2,
     (1/2 : α) * ((1/2 : α) - cell_diff.y) ^ 2⟩,
    ⟨(3/4 : α) - cell_diff.x ^ 2,
     (3/4 : α) - cell_diff.y ^ 2⟩,
    ⟨(1/2 : α) * ((1/2 : α) + cell_diff.x) ^ 2,
     (1/2 : α) * ((1/2 : α) + cell_diff.y) ^ 2⟩]

/-- `weighted_velocity_and_cell_dist_to_term` (src/grid.rs lines 102-116). -/
def weighted_velocity_and_cell_dist_to_term (weighted_velocity cell_dist : Vec2 α) :
    Mat2 α :=
  ⟨⟨weighted_velocity.x * cell_dist.x, weighted_velocity.y * cell_dist.x⟩,
   ⟨weighted_velocity.x * cell_dist.y, weighted_velocity.y * cell_dist.y⟩⟩

instance : Add (Vec2 α) := ⟨Vec2.add⟩

instance : Zero (Vec2 α) := ⟨Vec2.zero⟩

instance : AddCommMonoid (Vec2 α) where
  add_assoc a b c := by
    show Vec2.add (Vec2.add a b) c = Vec2.add a (Vec2.add b c)
    simp [Vec2.add, add_assoc]
  zero_add a := by
    show Vec2.add Vec2.zero a = a
    simp [Vec2.add, Vec2.zero]
  add_zero a := by
    show Vec2.add a Vec2.zero = a
    simp [Vec2.add, Vec2.zero]
  add_comm a b := by
    show Vec2.add a b = Vec2.add b a
    simp [Vec2.add, add_comm]
  nsmul := nsmulRec

/-- `position.0.x as u32` (src/step_update_cells.rs line 32 and the analogous
lines of the other stages): Rust float-to-int casts truncate toward zero and
saturate, so for the nonnegative in-grid positions this is the floor, and a
negative position becomes 0.  (Saturation at u32::MAX is not modelled; every
use here is inside the grid.) -/
def u32_cast (q : ℚ) : ℕ :=
  (⌊q⌋).toNat

/-- `cell_pos_x as usize` for an `i32` value (src/step_update_cells.rs line 50
and analogous): the cast sign-extends and reinterprets, i.e. wraps modulo
2^64, written with an explicit modulus. -/
def usize_of_int (z : ℤ) : ℕ :=
  (z % 2 ^ 64).toNat

/-- `grid.cells[i]` on the read side.  Rust panics on an out-of-range index;
all reads proved about below are in range, where `getD` agrees. -/
def cellAt (g : Grid ℚ) (i : ℕ) : Cell ℚ :=
  g.cells.getD i default

/-- The cell_diff of a particle position (shared first lines of every stage
body, e.g. src/step_update_cells.rs lines 32-37). -/
def cell_diff_of (position : Vec2 ℚ) : Vec2 ℚ :=
  ⟨position.x - (u32_cast position.x : ℚ) - 1/2,
   position.y - (u32_cast position.y : ℚ) - 1/2⟩

/-- Absolute grid index of stencil neighbor (gx,gy) of the particle's base
cell: `grid.index_at((cell_x as i32 + gx - 1) as usize, (cell_y as i32 + gy - 1) as usize)`. -/
def neighbor_index (g : Grid ℚ) (position : Vec2 ℚ) (gx gy : Fin 3) : ℕ :=
  g.index_at (usize_of_int ((u32_cast position.x : ℤ) + (gx : ℕ) - 1))
    (usize_of_int ((u32_cast position.y : ℤ) + (gy : ℕ) - 1))

/-- `cell_dist` for stencil neighbor (gx,gy)
(src/step_update_cells.rs lines 46-49 and analogous). -/
def cell_dist_of (position : Vec2 ℚ) (gx gy : Fin 3) : Vec2 ℚ :=
  ⟨(((u32_cast position.x : ℤ) + (gx : ℕ) - 1 : ℤ) : ℚ) - position.x + 1/2,
   (((u32_cast position.y : ℤ) + (gy : ℕ) - 1 : ℤ) : ℚ) - position.y + 1/2⟩

/-- Tuple struct `GridMassAndMomentumChange(usize, f32, Vec2)`
(src/components.rs line 140): a cell index, a mass delta and a momentum delta. -/
structure GridMassAndMomentumChange where
  idx : ℕ
  dm : ℚ
  dv : Vec2 ℚ
  deriving DecidableEq, Repr

/-- Particle state read by the mass/velocity scatter stage
(src/step_update_cells.rs query: Position, Velocity, Mass, AffineMomentum). -/
structure Particle where
  position : Vec2 ℚ
  velocity : Vec2 ℚ
  mass : ℚ
  affine_momentum : Mat2 ℚ
  deriving DecidableEq, Repr

/-- Loop body of `update_cells` for stencil neighbor (gx,gy)
(src/step_update_cells.rs lines 41-61): mass contribution `weight * mass` and
momentum contribution `(velocity + affine_momentum * cell_dist) * mass_contrib`
aimed at the neighbor's cell index. -/
def update_cells_contrib (g : Grid ℚ) (p : Particle) (gx gy : Fin 3) :
    GridMassAndMomentumChange :=
  let weights := quadratic_interpolation_weights (cell_diff_of p.position)
  let weight := (weights gx).x * (weights gy).y
  let cell_dist := cell_dist_of p.position gx gy
  let q := p.affine_momentum.mul_vec2 cell_dist
  let mass_contrib := weight * p.mass
  { idx := neighbor_index g p.position gx gy
    dm := mass_contrib
    dv := (p.velocity.add q).smul mass_contrib }

/-- `update_cells` (src/step_update_cells.rs lines 9-64) for one particle: the
content of its 9-slot `CellMassMomentumContributions` buffer, slot `s` holding
the contribution for `(gx, gy) = (s mod 3, s div 3)`. -/
def update_cells (g : Grid ℚ) (p : Particle) : List GridMassAndMomentumChange :=
  [update_cells_contrib g p 0 0, update_cells_contrib g p 1 0, update_cells_contrib g p 2 0,
   update_cells_contrib g p 0 1, update_cells_contrib g p 1 1, update_cells_contrib g p 2 1,
   update_cells_contrib g p 0 2, update_cells_contrib g p 1 2, update_cells_contrib g p 2 2]

/-- One `grid.cells[change.0].mass += change.1; ...velocity += change.2`
step of `apply_update_cell_computations` (src/step_update_cells.rs lines 72-77).
Rust panics on an out-of-range index; `List.modify` is a no-op there — the
theorems below only apply it in range. -/
def apply_change (g : Grid ℚ) (ch : GridMassAndMomentumChange) : Grid ℚ :=
  { g with
    cells := List.modify
      (fun c => { velocity := c.velocity.add ch.dv, mass := c.mass + ch.dm })
      ch.idx g.cells }

/-- `apply_update_cell_computations` (src/step_update_cells.rs lines 68-78):
serial fold of every particle's buffered contributions into the grid. -/
def apply_update_cell_computations (g : Grid ℚ)
    (buffers : List (List GridMassAndMomentumChange)) : Grid ℚ :=
  buffers.foldl (fun acc buf => buf.foldl apply_change acc) g

/-- Stage 2 followed by stage 3: every particle's buffer is computed against
the shared (reset) grid, then all buffers are folded in. -/
def scatter_then_apply (g : Grid ℚ) (ps : List Particle) : Grid ℚ :=
  apply_update_cell_computations g (ps.map (update_cells g))

/-- Total mass deposited on the grid. -/
def totalMass (g : Grid ℚ) : ℚ :=
  (g.cells.map Cell.mass).sum

/-- The local density estimate shared by `particles_to_grid_fluids`
(src/step_p2g.rs lines 126-136) and `particles_to_grid_solids`
(src/step_p2g.rs lines 43-53): sum of `cell.mass * weight` over the 9
neighbor cells, in loop order. -/
def p2g_density (g : Grid ℚ) (position : Vec2 ℚ) : ℚ :=
  let weights := quadratic_interpolation_weights (cell_diff_of position)
  let term := fun (gx gy : Fin 3) =>
    (cellAt g (neighbor_index g position gx gy)).mass * ((weights gx).x * (weights gy).y)
  term 0 0 + term 0 1 + term 0 2
    + (term 1 0 + term 1 1 + term 1 2)
    + (term 2 0 + term 2 1 + term 2 2)

/-- `let volume = mass.0 / density` (src/step_p2g.rs lines 55 and 138): the
division is performed unconditionally, with no guard against a zero density.
(In the f32 source a zero divisor produces an infinite volume and NaN momentum
contributions; ℚ division by zero is a modelling artifact returning 0.) -/
def p2g_volume (g : Grid ℚ) (position : Vec2 ℚ) (mass : ℚ) : ℚ :=
  mass / p2g_density g position

/-- Result of the grid-to-particles gather for one particle. -/
structure G2PResult where
  position : Vec2 ℚ
  velocity : Vec2 ℚ
  affine_momentum : Mat2 ℚ
  deriving DecidableEq, Repr

/-- Inner-loop body of `grid_to_particles` (src/step_g2p.rs lines 38-55):
accumulate the APIC B matrix term and the weighted velocity for one stencil
neighbor. -/
def g2p_step (g : Grid ℚ) (position : Vec2 ℚ) (s : Mat2 ℚ × Vec2 ℚ)
    (gg : Fin 3 × Fin 3) : Mat2 ℚ × Vec2 ℚ :=
  let weights := quadratic_interpolation_weights (cell_diff_of position)
  let weight := (weights gg.1).x * (weights gg.2).y
  let cell_dist := cell_dist_of position gg.1 gg.2
  let weighted_velocity := (cellAt g (neighbor_index g position gg.1 gg.2)).velocity.smul weight
  (s.1.add (weighted_velocity_and_cell_dist_to_term weighted_velocity cell_dist),
   s.2.add weighted_velocity)

/-- The 9 stencil pairs in the nested-loop iteration order (gx outer, gy inner). -/
def g2p_pairs : List (Fin 3 × Fin 3) :=
  [(0, 0), (0, 1), (0, 2), (1, 0), (1, 1), (1, 2), (2, 0), (2, 1), (2, 2)]

/-- Per-particle body of `grid_to_particles` (src/step_g2p.rs lines 20-86):
velocity reset and re-gathered from the 9 neighbor cells, the APIC B matrix
accumulated and scaled by 4, the position advected by `velocity * dt` and then
hard-clamped to `[1, width-2]` on both axes.  The predictive boundary velocity
cap of the spec is commented out in the source (lines 69-85), so no further
velocity adjustment happens. -/
def grid_to_particles_step (g : Grid ℚ) (dt : ℚ) (position : Vec2 ℚ) : G2PResult :=
  let bv := g2p_pairs.foldl (g2p_step g position) (Mat2.zero, Vec2.zero)
  let velocity := bv.2
  let affine_momentum := bv.1.smul 4
  let advected := position.add (velocity.smul dt)
  let px := min (max advected.x 1) ((usize_sub g.width 2 : ℕ) : ℚ)
  let py := min (max advected.y 1) ((usize_sub g.width 2 : ℕ) : ℚ)
  { position := ⟨px, py⟩, velocity := velocity, affine_momentum := affine_momentum }

/-- Pure 9-neighbor weighted velocity interpolation, as a finite sum. -/
def gather_velocity (g : Grid ℚ) (position : Vec2 ℚ) : Vec2 ℚ :=
  ∑ gx : Fin 3, ∑ gy : Fin 3,
    (cellAt g (neighbor_index g position gx gy)).velocity.smul
      ((quadratic_interpolation_weights (cell_diff_of position) gx).x
        * (quadratic_interpolation_weights (cell_diff_of position) gy).y)

/-- Modelled from the spec (§4.4 stage 6): the predictive boundary velocity
correction — project the position forward by `velocity * dt * (0.1/dt)` and,
if the projected point crosses a wall set back 3 cells from a domain edge, add
the compensating velocity.  This code is commented out in src/step_g2p.rs
lines 69-85; this definition follows the spec's words for comparison. -/
def predictive_boundary_correction (width : ℕ) (dt : ℚ) (position velocity : Vec2 ℚ) :
    Vec2 ℚ :=
  let position_next := position.add (velocity.smul (dt * ((1/10) / dt)))
  let wall_min : ℚ := 3
  let wall_max : ℚ := (width : ℚ) - 1 - wall_min
  let vx := velocity.x
  let vx := if position_next.x < wall_min then vx + (wall_min - position_next.x) else vx
  let vx := if position_next.x > wall_max then vx + (wall_max - position_next.x) else vx
  let vy := velocity.y
  let vy := if position_next.y < wall_min then vy + (wall_min - position_next.y) else vy
  let vy := if position_next.y > wall_max then vy + (wall_max - position_next.y) else vy
  ⟨vx, vy⟩

/-- Concrete 10x10 grid for the C2 counterexample: velocity (-8, 0) with unit
mass in the four cells at indices 14, 15, 24, 25 (grid coordinates (1,4),
(1,5), (2,4), (2,5)); every other cell zero. -/
def c2_grid : Grid ℚ :=
  { width := 10
    cells := (List.range 100).map fun i =>
      if i = 14 ∨ i = 15 ∨ i = 24 ∨ i = 25 then ⟨⟨-8, 0⟩, 1⟩ else ⟨Vec2.zero, 0⟩ }

/-- Neo-Hookean stress computation of `particles_to_grid_solids`
(src/step_p2g.rs lines 57-68): `J = det(F)`, `F_inv_T = inverse(transpose F)`,
`P = (F - F_inv_T) * elastic_mu + F_inv_T * (lg(J) * elastic_lambda)`,
`stress = P * transpose(F) * (1/J)`.  The logarithm is passed as the
parameter `lg`: the source calls `f32::log10` at line 65 (`j.log10()`), while
the spec mandates the natural logarithm. -/
def solid_stress (lg : α → α) (elastic_lambda elastic_mu : α)
    (deformation_gradient : Mat2 α) : Mat2 α :=
  let j := deformation_gradient.determinant
  let f_t := deformation_gradient.transpose
  let f_inv_t := f_t.inverse
  let f_minus_f_inv_t := deformation_gradient.sub f_inv_t
  let p_term_0 := f_minus_f_inv_t.smul elastic_mu
  let p_term_1 := f_inv_t.smul (lg j * elastic_lambda)
  let p_combined := p_term_0.add p_term_1
  (p_combined.mul_mat2 f_t).smul (1 / j)

lemma weights_x_sum (cell_diff : Vec2 α) :
    (quadratic_interpolation_weights cell_diff 0).x
      + (quadratic_interpolation_weights cell_diff 1).x
      + (quadratic_interpolation_weights cell_diff 2).x = 1 := by
  simp only [quadratic_interpolation_weights, Matrix.cons_val_zero, Matrix.cons_val_one,
    Matrix.head_cons, Matrix.cons_val_two, Matrix.tail_cons]
  field_simp
  ring

lemma weights_y_sum (cell_diff : Vec2 α) :
    (quadratic_interpolation_weights cell_diff 0).y
      + (quadratic_interpolation_weights cell_diff 1).y
      + (quadratic_interpolation_weights cell_diff 2).y = 1 := by
  simp only [quadratic_interpolation_weights, Matrix.cons_val_zero, Matrix.cons_val_one,
    Matrix.head_cons, Matrix.cons_val_two, Matrix.tail_cons]
  field_simp
  ring

/-- The 9 stencil weights of a particle sum to the product of the per-axis sums. -/
lemma weights_double_sum (cell_diff : Vec2 α) :
    (∑ gx : Fin 3, ∑ gy : Fin 3,
        (quadratic_interpolation_weights cell_diff gx).x
          * (quadratic_interpolation_weights cell_diff gy).y) = 1 := by
  have hx := weights_x_sum cell_diff
  have hy := weights_y_sum cell_diff
  simp only [Fin.sum_univ_three]
  calc (quadratic_interpolation_weights cell_diff 0).x
          * (quadratic_interpolation_weights cell_diff 0).y
        + (quadratic_interpolation_weights cell_diff 0).x
          * (quadratic_interpolation_weights cell_diff 1).y
        + (quadratic_interpolation_weights cell_diff 0).x
          * (quadratic_interpolation_weights cell_diff 2).y
        + ((quadratic_interpolation_weights cell_diff 1).x
          * (quadratic_interpolation_weights cell_diff 0).y
        + (quadratic_interpolation_weights cell_diff 1).x
          * (quadratic_interpolation_weights cell_diff 1).y
        + (quadratic_interpolation_weights cell_diff 1).x
          * (quadratic_interpolation_weights cell_diff 2).y)
        + ((quadratic_interpolation_weights cell_diff 2).x
          * (quadratic_interpolation_weights cell_diff 0).y
        + (quadratic_interpolation_weights cell_diff 2).x
          * (quadratic_interpolation_weights cell_diff 1).y
        + (quadratic_interpolation_weights cell_diff 2).x
          * (quadratic_interpolation_weights cell_diff 2).y)
      = ((quadratic_interpolation_weights cell_diff 0).x
          + (quadratic_interpolation_weights cell_diff 1).x
          + (quadratic_interpolation_weights cell_diff 2).x)
        * ((quadratic_interpolation_weights cell_diff 0).y
          + (quadratic_interpolation_weights cell_diff 1).y
          + (quadratic_interpolation_weights cell_diff 2).y) := by ring
    _ = 1 := by rw [hx, hy, one_mul]

/-- C6: for every cell_diff with both components in [-0.5, 0.5], the sum over
(gx,gy) in {0,1,2}x{0,1,2} of w[gx].x * w[gy].y equals 1, for the weights
returned by quadratic_interpolation_weights. -/
theorem c6_weight_normalization (cell_diff : Vec2 ℚ)
    (hx1 : -(1/2 : ℚ) ≤ cell_diff.x) (hx2 : cell_diff.x ≤ 1/2)
    (hy1 : -(1/2 : ℚ) ≤ cell_diff.y) (hy2 : cell_diff.y ≤ 1/2) :
    (∑ gx : Fin 3, ∑ gy : Fin 3,
        (quadratic_interpolation_weights cell_diff gx).x
          * (quadratic_interpolation_weights cell_diff gy).y) = 1 :=
  weights_double_sum cell_diff

/-- Witness for C6 at the concrete cell_diff (1/4, -1/4). -/
theorem c6_weight_normalization_witness :
    (-(1/2 : ℚ) ≤ (1/4 : ℚ) ∧ (1/4 : ℚ) ≤ 1/2
      ∧ -(1/2 : ℚ) ≤ -(1/4 : ℚ) ∧ -(1/4 : ℚ) ≤ 1/2)
    ∧ (∑ gx : Fin 3, ∑ gy : Fin 3,
        (quadratic_interpolation_weights (⟨1/4, -(1/4)⟩ : Vec2 ℚ) gx).x
          * (quadratic_interpolation_weights (⟨1/4, -(1/4)⟩ : Vec2 ℚ) gy).y) = 1 :=
  ⟨⟨by norm_num, by norm_num, by norm_num, by norm_num⟩,
    c6_weight_normalization ⟨1/4, -(1/4)⟩ (by norm_num) (by norm_num)
      (by norm_num) (by norm_num)⟩

/-- C3 counterexample: the claim says construction rejects a zero grid width
and a zero dt; in the source both constructors succeed at those inputs and
return usable objects, while the spec-modelled validating constructors reject
them. -/
theorem c3_counterexample :
    (Grid.new 0 : Grid ℚ).width = 0
    ∧ (Grid.new 0 : Grid ℚ).cells = []
    ∧ (WorldState.new (0 : ℚ) (-(98/10)) true).dt = 0
    ∧ (WorldState.new (0 : ℚ) (-(98/10)) true).current_tick = 0
    ∧ (Grid.new_validated 0 : Option (Grid ℚ)) = none
    ∧ WorldState.new_validated (0 : ℚ) (-(98/10)) true = none := by
  refine ⟨rfl, rfl, rfl, rfl, rfl, ?_⟩
  simp [WorldState.new_validated]

/-- C3 amended: `Grid::new` and `WorldState::new` perform no validation at
all — a zero-width grid (with an empty cell array) and a world state with
zero dt are constructed successfully, exactly as any other argument values
would be; configuration errors are not rejected at construction time. -/
theorem c3_no_construction_validation :
    ∀ (w : ℕ) (dt g : ℚ) (ge : Bool),
      (Grid.new w : Grid ℚ).width = w
      ∧ (Grid.new w : Grid ℚ).cells.length = w * w
      ∧ (WorldState.new dt g ge).dt = dt
      ∧ (WorldState.new dt g ge).gravity = g
      ∧ (WorldState.new dt g ge).gravity_enabled = ge
      ∧ (WorldState.new dt g ge).current_tick = 0 := by
  intro w dt g ge
  refine ⟨rfl, ?_, rfl, rfl, rfl, rfl⟩
  simp [Grid.new]

lemma max_zero_eq (v : α) : max v 0 = if v < 0 then 0 else v := by
  rcases lt_or_le v 0 with h | h
  · simp [max_eq_right h.le, h]
  · simp [max_eq_left h, not_lt.mpr h]

lemma min_zero_eq (v : α) : min v 0 = if 0 < v then 0 else v := by
  rcases lt_or_le 0 v with h | h
  · simp [min_eq_right h.le, h]
  · simp [min_eq_left h, not_lt.mpr h]

lemma boundary_code_eq_desc (lo hi : Prop) [Decidable lo] [Decidable hi] (v : α) :
    boundary_code lo hi v = boundary_desc lo hi v := by
  unfold boundary_code boundary_desc
  by_cases hl : lo <;> by_cases hh : hi <;>
      simp only [hl, hh, true_and, false_and, if_true, if_false]
  · rw [max_zero_eq, min_zero_eq]
  · rw [max_zero_eq]
  · rw [min_zero_eq]

lemma updateCellsFrom_getD (width : ℕ) (dt gravity : α) :
    ∀ (l : List (Cell α)) (s i : ℕ), i < l.length →
      (updateCellsFrom width dt gravity s l).getD i default
        = updateCell width dt gravity (s + i) (l.getD i default) := by
  intro l
  induction l with
  | nil => intro s i hi; simp at hi
  | cons c rest ih =>
      intro s i hi
      cases i with
      | zero => simp [updateCellsFrom]
      | succ j =>
          have hj : j < rest.length := by simpa using hi
          simp only [updateCellsFrom, List.getD_cons_succ]
          rw [ih (s + 1) j hj]
          ring_nf

lemma updateCellsFrom_length (width : ℕ) (dt gravity : α) :
    ∀ (l : List (Cell α)) (s : ℕ),
      (updateCellsFrom width dt gravity s l).length = l.length := by
  intro l
  induction l with
  | nil => intro s; rfl
  | cons c rest ih => intro s; simp [updateCellsFrom, ih]

/-- C7: Grid.update(dt, gravity) transforms every cell with mass > 0 by
dividing its velocity by its mass, adding dt * gravity to the y component
(the caller passes gravity only when it is enabled), and zeroing the
outward-pointing velocity component in the two innermost rows/columns next
to each of the four domain edges; cells with mass ≤ 0 (in particular mass
exactly 0) are left completely untouched. -/
theorem c7_grid_update (g : Grid ℚ) (dt gravity : ℚ) (i : ℕ)
    (hi : i < g.cells.length) (hw : 3 ≤ g.width) (hw64 : g.width < 2 ^ 64) :
    (g.update dt gravity).cells.getD i default =
      (if 0 < (g.cells.getD i default).mass then
        { velocity := wall_rule_desc g.width i
            ⟨(g.cells.getD i default).velocity.x / (g.cells.getD i default).mass,
             (g.cells.getD i default).velocity.y / (g.cells.getD i default).mass
               + dt * gravity⟩
          mass := (g.cells.getD i default).mass }
       else g.cells.getD i default) := by
  have h := updateCellsFrom_getD g.width dt gravity g.cells 0 i hi
  simp only [Grid.update] at h ⊢
  rw [h, Nat.zero_add]
  set c := g.cells.getD i default with hc
  unfold updateCell
  by_cases hm : 0 < c.mass
  · simp only [hm, if_true]
    have hx2 : (i / g.width < 2) ↔ (i / g.width ≤ 1) := by omega
    have hy2 : (i % g.width < 2) ↔ (i % g.width ≤ 1) := by omega
    have hxs : (usize_sub g.width 3 < i / g.width) ↔ (g.width - 2 ≤ i / g.width) := by
      rw [usize_sub_three_eq g.width hw hw64]
      omega
    have hys : (usize_sub g.width 3 < i % g.width) ↔ (g.width - 2 ≤ i % g.width) := by
      rw [usize_sub_three_eq g.width hw hw64]
      omega
    rw [boundary_code_eq_desc, boundary_code_eq_desc]
    unfold wall_rule_desc
    simp only [hx2, hy2, hxs, hys, Vec2.smul, div_eq_mul_inv, one_div, one_mul]
  · simp [hm]

/-- Witness for C7: a grid of width 3 with one heavy cell at index 1 (column
x = 0, row y = 1, so leftward velocity is zeroed and the downward component
survives the low band but is zeroed nowhere else). -/
theorem c7_grid_update_witness :
    (1 < (({ cells := [⟨⟨0, 0⟩, 0⟩, ⟨⟨-3, 6⟩, 2⟩], width := 3 } : Grid ℚ).cells.length)
      ∧ 3 ≤ ({ cells := [⟨⟨0, 0⟩, 0⟩, ⟨⟨-3, 6⟩, 2⟩], width := 3 } : Grid ℚ).width
      ∧ ({ cells := [⟨⟨0, 0⟩, 0⟩, ⟨⟨-3, 6⟩, 2⟩], width := 3 } : Grid ℚ).width < 2 ^ 64)
    ∧ (({ cells := [⟨⟨0, 0⟩, 0⟩, ⟨⟨-3, 6⟩, 2⟩], width := 3 } : Grid ℚ).update 1 (-4)).cells.getD 1 default =
      (if 0 < (({ cells := [⟨⟨0, 0⟩, 0⟩, ⟨⟨-3, 6⟩, 2⟩], width := 3 } : Grid ℚ).cells.getD 1 default).mass then
        { velocity := wall_rule_desc 3 1
            ⟨(-3 : ℚ) / 2, (6 : ℚ) / 2 + 1 * (-4)⟩
          mass := (2 : ℚ) }
       else ({ cells := [⟨⟨0, 0⟩, 0⟩, ⟨⟨-3, 6⟩, 2⟩], width := 3 } : Grid ℚ).cells.getD 1 default) :=
  ⟨⟨by decide, by decide, by decide⟩,
    c7_grid_update { cells := [⟨⟨0, 0⟩, 0⟩, ⟨⟨-3, 6⟩, 2⟩], width := 3 } 1 (-4) 1
      (by decide) (by decide) (by decide)⟩

/-- C8: an entity is removed by delete_old_entities exactly when
current_tick > created_at + max_age; with created_at = 0 and max_age = 100 it
survives tick 100 and is removed at tick 101. -/
theorem c8_particle_expiry :
    (∀ (ct : ℕ) (es : List AgedEntity) (e : AgedEntity),
        e ∈ delete_old_entities ct es ↔ e ∈ es ∧ ¬ (e.created_at + e.max_age < ct))
    ∧ delete_old_entities 100 [⟨0, 100⟩] = [⟨0, 100⟩]
    ∧ delete_old_entities 101 [⟨0, 100⟩] = [] := by
  refine ⟨?_, by decide, by decide⟩
  intro ct es e
  simp [delete_old_entities, List.mem_filter]

/-- C9: the deformation-gradient update computes (I + dt * C) * F_old in that
matrix-product order; for F_old = I and C = k * I the result is the isotropic
dilation (1 + dt * k) * I, and at a concrete non-commuting pair the opposite
product order gives a different matrix. -/
theorem c9_deformation_update :
    (∀ (d k : ℚ),
        update_deformation_gradient d (Mat2.identity.smul k) Mat2.identity
          = Mat2.identity.smul (1 + d * k))
    ∧ (∀ (d : ℚ) (c f : Mat2 ℚ),
        update_deformation_gradient d c f
          = (Mat2.identity.add (c.smul d)).mul_mat2 f)
    ∧ update_deformation_gradient (1 : ℚ) ⟨⟨0, 1⟩, ⟨0, 0⟩⟩ ⟨⟨0, 0⟩, ⟨1, 0⟩⟩
        ≠ (⟨⟨0, 0⟩, ⟨1, 0⟩⟩ : Mat2 ℚ).mul_mat2
            (Mat2.identity.add ((⟨⟨0, 1⟩, ⟨0, 0⟩⟩ : Mat2 ℚ).smul 1)) := by
  refine ⟨?_, fun d c f => rfl, ?_⟩
  · intro d k
    simp only [update_deformation_gradient, Mat2.identity, Mat2.smul, Mat2.add,
      Mat2.mul_mat2, Mat2.mul_vec2, Vec2.smul, Vec2.add, Mat2.mk.injEq, Vec2.mk.injEq]
    norm_num
    ring
  · intro hEq
    have h := congrArg (fun m => m.x_axis.x) hEq
    norm_num [update_deformation_gradient, Mat2.identity, Mat2.smul, Mat2.add,
      Mat2.mul_mat2, Mat2.mul_vec2, Vec2.smul, Vec2.add] at h

lemma Vec2.add_eq (a b : Vec2 α) : a.add b = a + b := rfl

lemma Vec2.zero_eq : (Vec2.zero : Vec2 α) = 0 := rfl

lemma g2p_foldl_velocity (g : Grid ℚ) (position : Vec2 ℚ) :
    (g2p_pairs.foldl (g2p_step g position) (Mat2.zero, Vec2.zero)).2
      = gather_velocity g position := by
  simp only [g2p_pairs, List.foldl_cons, List.foldl_nil, g2p_step,
    gather_velocity, Fin.sum_univ_three, Vec2.add_eq, Vec2.zero_eq]
  abel

/-- C2 counterexample: at a concrete interior particle the gather stage returns
the raw interpolated velocity (-8, 0) and the advected clamped position
(6/5, 5); had the spec's predictive boundary correction been applied to that
state it would have produced velocity (-27/5, 0) instead, which differs.  The
correction code is commented out in src/step_g2p.rs lines 69-85. -/
theorem c2_counterexample :
    (grid_to_particles_step c2_grid (1/10) ⟨2, 5⟩).velocity = ⟨-8, 0⟩
    ∧ (grid_to_particles_step c2_grid (1/10) ⟨2, 5⟩).position = ⟨6/5, 5⟩
    ∧ predictive_boundary_correction 10 (1/10) ⟨6/5, 5⟩ ⟨-8, 0⟩ = ⟨-27/5, 0⟩
    ∧ (⟨-27/5, 0⟩ : Vec2 ℚ) ≠ ⟨-8, 0⟩ := by
  have hcell : ∀ i : ℕ, i < 100 → cellAt c2_grid i =
      (if i = 14 ∨ i = 15 ∨ i = 24 ∨ i = 25 then ⟨⟨-8, 0⟩, 1⟩ else ⟨Vec2.zero, 0⟩) := by
    intro i hi
    simp [cellAt, c2_grid, List.getD_eq_getElem?_getD, List.getElem?_map,
      List.getElem?_range hi]
  have hu2 : u32_cast (2 : ℚ) = 2 := by decide
  have hu5 : u32_cast (5 : ℚ) = 5 := by decide
  have hn00 : neighbor_index c2_grid ⟨2, 5⟩ 0 0 = 14 := by decide
  have hn01 : neighbor_index c2_grid ⟨2, 5⟩ 0 1 = 15 := by decide
  have hn02 : neighbor_index c2_grid ⟨2, 5⟩ 0 2 = 16 := by decide
  have hn10 : neighbor_index c2_grid ⟨2, 5⟩ 1 0 = 24 := by decide
  have hn11 : neighbor_index c2_grid ⟨2, 5⟩ 1 1 = 25 := by decide
  have hn12 : neighbor_index c2_grid ⟨2, 5⟩ 1 2 = 26 := by decide
  have hn20 : neighbor_index c2_grid ⟨2, 5⟩ 2 0 = 34 := by decide
  have hn21 : neighbor_index c2_grid ⟨2, 5⟩ 2 1 = 35 := by decide
  have hn22 : neighbor_index c2_grid ⟨2, 5⟩ 2 2 = 36 := by decide
  have husz : ((usize_sub c2_grid.width 2 : ℕ) : ℚ) = 8 := by
    rw [show usize_sub c2_grid.width 2 = 8 from by decide]
    norm_num
  have h14 : cellAt c2_grid 14 = ⟨⟨-8, 0⟩, 1⟩ := by rw [hcell 14 (by norm_num)]; norm_num
  have h15 : cellAt c2_grid 15 = ⟨⟨-8, 0⟩, 1⟩ := by rw [hcell 15 (by norm_num)]; norm_num
  have h16 : cellAt c2_grid 16 = ⟨Vec2.zero, 0⟩ := by rw [hcell 16 (by norm_num)]; norm_num
  have h24 : cellAt c2_grid 24 = ⟨⟨-8, 0⟩, 1⟩ := by rw [hcell 24 (by norm_num)]; norm_num
  have h25 : cellAt c2_grid 25 = ⟨⟨-8, 0⟩, 1⟩ := by rw [hcell 25 (by norm_num)]; norm_num
  have h26 : cellAt c2_grid 26 = ⟨Vec2.zero, 0⟩ := by rw [hcell 26 (by norm_num)]; norm_num
  have h34 : cellAt c2_grid 34 = ⟨Vec2.zero, 0⟩ := by rw [hcell 34 (by norm_num)]; norm_num
  have h35 : cellAt c2_grid 35 = ⟨Vec2.zero, 0⟩ := by rw [hcell 35 (by norm_num)]; norm_num
  have h36 : cellAt c2_grid 36 = ⟨Vec2.zero, 0⟩ := by rw [hcell 36 (by norm_num)]; norm_num
  refine ⟨?_, ?_, ?_, ?_⟩
  · simp only [grid_to_particles_step, g2p_pairs, List.foldl_cons, List.foldl_nil,
      g2p_step, hn00, hn01, hn02, hn10, hn11, hn12, hn20, hn21, hn22,
      h14, h15, h16, h24, h25, h26, h34, h35, h36, cell_diff_of, hu2, hu5]
    norm_num [quadratic_interpolation_weights, Matrix.cons_val_zero,
      Matrix.cons_val_one, Matrix.head_cons, Matrix.cons_val_two, Matrix.tail_cons,
      Vec2.add, Vec2.smul, Vec2.zero, Vec2.mk.injEq]
  · simp only [grid_to_particles_step, g2p_pairs, List.foldl_cons, List.foldl_nil,
      g2p_step, hn00, hn01, hn02, hn10, hn11, hn12, hn20, hn21, hn22,
      h14, h15, h16, h24, h25, h26, h34, h35, h36, cell_diff_of, hu2, hu5, husz]
    norm_num [quadratic_interpolation_weights, Matrix.cons_val_zero,
      Matrix.cons_val_one, Matrix.head_cons, Matrix.cons_val_two, Matrix.tail_cons,
      Vec2.add, Vec2.smul, Vec2.zero, Vec2.mk.injEq, min_def, max_def]
  · norm_num [predictive_boundary_correction, Vec2.add, Vec2.smul, Vec2.mk.injEq]
  · intro h
    have h2 := congrArg Vec2.x h
    norm_num at h2

/-- C2 amended: after advection and the hard position clamp to [1, width-2],
no predictive boundary velocity correction is applied (that code is commented
out): the particle's velocity leaving the gather stage is exactly the
9-neighbor weighted interpolation of grid velocities, and its position is
exactly the clamped advected position. -/
theorem c2_gather_without_correction (g : Grid ℚ) (dt : ℚ) (position : Vec2 ℚ) :
    (grid_to_particles_step g dt position).velocity = gather_velocity g position
    ∧ (grid_to_particles_step g dt position).position =
        ⟨min (max (position.x + (gather_velocity g position).x * dt) 1)
            ((usize_sub g.width 2 : ℕ) : ℚ),
         min (max (position.y + (gather_velocity g position).y * dt) 1)
            ((usize_sub g.width 2 : ℕ) : ℚ)⟩ := by
  have hv := g2p_foldl_velocity g position
  constructor
  · simp only [grid_to_particles_step]
    exact hv
  · simp only [grid_to_particles_step, hv, Vec2.add, Vec2.smul]

/-- C4: on a freshly created (all-zero) grid the locally estimated density of
a particle at (5, 5) is exactly 0, and the volume computation divides the
particle mass by that zero density with no guard (in the f32 source this
produces an infinite volume and NaN momentum contributions; the ℚ value 0 here
is the division-by-zero convention of the embedding, not a guard). -/
theorem c4_zero_density_unguarded :
    p2g_density (Grid.new 10) ⟨5, 5⟩ = 0
    ∧ p2g_volume (Grid.new 10) ⟨5, 5⟩ (53/50) = (53/50) / 0 := by
  have hcell : ∀ i : ℕ, cellAt (Grid.new 10) i = { velocity := Vec2.zero, mass := 0 } := by
    intro i
    simp only [cellAt, Grid.new]
    rw [List.getD_eq_getElem?_getD, List.getElem?_replicate]
    rcases lt_or_le i (10 * 10) with hi | hi
    · rw [if_pos hi]
      rfl
    · rw [if_neg (not_lt.mpr hi)]
      rfl
  have hd : p2g_density (Grid.new 10) ⟨5, 5⟩ = 0 := by
    simp [p2g_density, hcell]
  exact ⟨hd, by rw [p2g_volume, hd]⟩

/-- C1: the source computes the stress with `j.log10()`
(src/step_p2g.rs line 65, likewise src/main.rs line 450), not the natural
logarithm the claim states.  At F = diag(10, 1) (so J = 10), elastic_lambda = 1
and elastic_mu = 0, the source's base-10 instantiation gives stress
diag(1/10, 1/10), while the claim's natural-log instantiation gives a
different matrix, since ln(10) is not 1. -/
theorem c1_log_base (hlog : (1 : ℝ) < Real.log 10) :
    solid_stress (fun q => Real.logb 10 q) (1 : ℝ) 0 ⟨⟨10, 0⟩, ⟨0, 1⟩⟩
      = ⟨⟨1/10, 0⟩, ⟨0, 1/10⟩⟩
    ∧ solid_stress Real.log (1 : ℝ) 0 ⟨⟨10, 0⟩, ⟨0, 1⟩⟩
      ≠ ⟨⟨1/10, 0⟩, ⟨0, 1/10⟩⟩ := by
  have hdet : (Mat2.determinant (⟨⟨10, 0⟩, ⟨0, 1⟩⟩ : Mat2 ℝ)) = 10 := by
    simp [Mat2.determinant]
  constructor
  · simp only [solid_stress, Mat2.determinant, Mat2.transpose, Mat2.inverse,
      Mat2.sub, Mat2.smul, Mat2.add, Mat2.mul_mat2, Mat2.mul_vec2, Vec2.smul,
      Vec2.add, Mat2.mk.injEq, Vec2.mk.injEq]
    norm_num
  · intro hEq
    have h := congrArg (fun m => m.x_axis.x) hEq
    simp only [solid_stress, Mat2.determinant, Mat2.transpose, Mat2.inverse,
      Mat2.sub, Mat2.smul, Mat2.add, Mat2.mul_mat2, Mat2.mul_vec2, Vec2.smul,
      Vec2.add] at h
    norm_num at h
    ring_nf at h
    linarith

/-- Witness for C1: 1 < ln 10, since e < 3 < 10. -/
theorem c1_log_base_witness :
    (1 : ℝ) < Real.log 10
    ∧ solid_stress (fun q => Real.logb 10 q) (1 : ℝ) 0 ⟨⟨10, 0⟩, ⟨0, 1⟩⟩
        = ⟨⟨1/10, 0⟩, ⟨0, 1/10⟩⟩ := by
  have hexp : Real.exp 1 < 10 := lt_trans Real.exp_one_lt_d9 (by norm_num)
  have h1 : (1 : ℝ) < Real.log 10 := by
    have h2 := Real.log_lt_log (Real.exp_pos 1) hexp
    rwa [Real.log_exp] at h2
  exact ⟨h1, (c1_log_base h1).1⟩

lemma totalMass_reset (g : Grid ℚ) : totalMass g.reset = 0 := by
  apply List.sum_eq_zero
  intro q hq
  simp only [Grid.reset, totalMass, List.map_map, List.mem_map] at hq
  obtain ⟨c, _, hc⟩ := hq
  simp [← hc, Function.comp]

lemma reset_cells_length (g : Grid ℚ) : g.reset.cells.length = g.cells.length := by
  simp [Grid.reset]

lemma reset_width (g : Grid ℚ) : g.reset.width = g.width := rfl

lemma sum_map_modify_mass :
    ∀ (l : List (Cell ℚ)) (i : ℕ) (dv : Vec2 ℚ) (dm : ℚ), i < l.length →
      ((List.modify (fun c => { velocity := c.velocity.add dv, mass := c.mass + dm }) i l).map
          Cell.mass).sum
        = (l.map Cell.mass).sum + dm := by
  intro l
  induction l with
  | nil => intro i dv dm hi; simp at hi
  | cons c rest ih =>
      intro i dv dm hi
      cases i with
      | zero =>
          simp only [List.modify_zero_cons, List.map_cons, List.sum_cons]
          ring
      | succ j =>
          have hj : j < rest.length := by simpa using hi
          simp only [List.modify_succ_cons, List.map_cons, List.sum_cons]
          rw [ih j dv dm hj]
          ring

lemma totalMass_apply_change (g : Grid ℚ) (ch : GridMassAndMomentumChange)
    (h : ch.idx < g.cells.length) :
    totalMass (apply_change g ch) = totalMass g + ch.dm := by
  simp only [totalMass, apply_change]
  exact sum_map_modify_mass g.cells ch.idx ch.dv ch.dm h

lemma apply_change_length (g : Grid ℚ) (ch : GridMassAndMomentumChange) :
    (apply_change g ch).cells.length = g.cells.length := by
  simp [apply_change, List.length_modify]

lemma foldl_apply_change (buf : List GridMassAndMomentumChange) :
    ∀ (g : Grid ℚ), (∀ ch ∈ buf, ch.idx < g.cells.length) →
      totalMass (buf.foldl apply_change g)
          = totalMass g + ((buf.map GridMassAndMomentumChange.dm).sum)
        ∧ (buf.foldl apply_change g).cells.length = g.cells.length := by
  induction buf with
  | nil => intro g _; simp
  | cons ch rest ih =>
      intro g hidx
      have hch : ch.idx < g.cells.length := hidx ch (List.mem_cons_self ch rest)
      have hrest : ∀ c ∈ rest, c.idx < (apply_change g ch).cells.length := by
        intro c hc
        rw [apply_change_length]
        exact hidx c (List.mem_cons_of_mem ch hc)
      obtain ⟨hmass, hlen⟩ := ih (apply_change g ch) hrest
      constructor
      · rw [List.foldl_cons, hmass, totalMass_apply_change g ch hch]
        simp [add_assoc]
      · rw [List.foldl_cons, hlen, apply_change_length]

lemma coord_mul_lt (a b w : ℕ) (ha : a < w) (hb : b < w) : a * w + b < w * w := by
  calc a * w + b < a * w + w := by omega
    _ = (a + 1) * w := by ring
    _ ≤ w * w := Nat.mul_le_mul_right w (by omega)

lemma floor_bounds_of_interior (q : ℚ) (w : ℕ) (h1 : 1 ≤ q) (h2 : q < (w : ℚ) - 1) :
    1 ≤ ⌊q⌋ ∧ ⌊q⌋ ≤ (w : ℤ) - 2 := by
  constructor
  · exact Int.le_floor.mpr (by exact_mod_cast h1)
  · have hq : (⌊q⌋ : ℚ) < (w : ℚ) - 1 := lt_of_le_of_lt (Int.floor_le q) h2
    have : ⌊q⌋ < (w : ℤ) - 1 := by exact_mod_cast hq
    omega

lemma neighbor_coord_lt (q : ℚ) (w : ℕ) (gi : Fin 3)
    (h1 : 1 ≤ q) (h2 : q < (w : ℚ) - 1) (hw64 : w ≤ 2 ^ 64) :
    usize_of_int ((u32_cast q : ℤ) + (gi : ℕ) - 1) < w := by
  obtain ⟨hf1, hf2⟩ := floor_bounds_of_interior q w h1 h2
  have hgi : (gi : ℕ) < 3 := gi.isLt
  unfold u32_cast usize_of_int
  omega

lemma neighbor_index_lt (g : Grid ℚ) (pos : Vec2 ℚ) (gx gy : Fin 3)
    (hx1 : 1 ≤ pos.x) (hx2 : pos.x < (g.width : ℚ) - 1)
    (hy1 : 1 ≤ pos.y) (hy2 : pos.y < (g.width : ℚ) - 1)
    (hw64 : g.width ≤ 2 ^ 64) :
    neighbor_index g pos gx gy < g.width * g.width := by
  unfold neighbor_index Grid.index_at
  exact coord_mul_lt _ _ _
    (neighbor_coord_lt pos.x g.width gx hx1 hx2 hw64)
    (neighbor_coord_lt pos.y g.width gy hy1 hy2 hw64)

lemma update_cells_idx_lt (g : Grid ℚ) (p : Particle)
    (hx1 : 1 ≤ p.position.x) (hx2 : p.position.x < (g.width : ℚ) - 1)
    (hy1 : 1 ≤ p.position.y) (hy2 : p.position.y < (g.width : ℚ) - 1)
    (hw64 : g.width ≤ 2 ^ 64) :
    ∀ ch ∈ update_cells g p, ch.idx < g.width * g.width := by
  intro ch hch
  have hidx : ∀ (gx gy : Fin 3), (update_cells_contrib g p gx gy).idx < g.width * g.width := by
    intro gx gy
    show neighbor_index g p.position gx gy < g.width * g.width
    exact neighbor_index_lt g p.position gx gy hx1 hx2 hy1 hy2 hw64
  simp only [update_cells, List.mem_cons, List.not_mem_nil, or_false] at hch
  rcases hch with h | h | h | h | h | h | h | h | h <;> rw [h] <;> exact hidx _ _

lemma update_cells_dm_sum (g : Grid ℚ) (p : Particle) :
    ((update_cells g p).map GridMassAndMomentumChange.dm).sum = p.mass := by
  simp only [update_cells, update_cells_contrib, List.map_cons, List.map_nil,
    List.sum_cons, List.sum_nil, add_zero]
  have hx := weights_x_sum (cell_diff_of p.position)
  have hy := weights_y_sum (cell_diff_of p.position)
  set W := quadratic_interpolation_weights (cell_diff_of p.position) with hW
  calc (W 0).x * (W 0).y * p.mass + ((W 1).x * (W 0).y * p.mass
          + ((W 2).x * (W 0).y * p.mass + ((W 0).x * (W 1).y * p.mass
          + ((W 1).x * (W 1).y * p.mass + ((W 2).x * (W 1).y * p.mass
          + ((W 0).x * (W 2).y * p.mass + ((W 1).x * (W 2).y * p.mass
          + (W 2).x * (W 2).y * p.mass)))))))
      = ((W 0).x + (W 1).x + (W 2).x) * ((W 0).y + (W 1).y + (W 2).y) * p.mass := by
        ring
    _ = p.mass := by rw [hx, hy]; ring

/-- C5: for particles positioned strictly inside the domain (so the whole
stencil is in bounds), the mass/velocity scatter (stage 2) followed by the
serial apply (stage 3) on a freshly reset grid deposits exactly the sum of
the particle masses on the grid. -/
theorem c5_mass_conservation (g : Grid ℚ) (ps : List Particle)
    (hlen : g.cells.length = g.width * g.width)
    (hw64 : g.width ≤ 2 ^ 64)
    (hps : ∀ p ∈ ps, 1 ≤ p.position.x ∧ p.position.x < (g.width : ℚ) - 1
      ∧ 1 ≤ p.position.y ∧ p.position.y < (g.width : ℚ) - 1) :
    totalMass (scatter_then_apply g.reset ps) = (ps.map Particle.mass).sum := by
  unfold scatter_then_apply apply_update_cell_computations
  rw [List.foldl_map]
  have key : ∀ (qs : List Particle) (acc : Grid ℚ),
      (∀ p ∈ qs, p ∈ ps) → acc.cells.length = g.width * g.width →
      totalMass (qs.foldl (fun a p => (update_cells g.reset p).foldl apply_change a) acc)
        = totalMass acc + (qs.map Particle.mass).sum := by
    intro qs
    induction qs with
    | nil => intro acc _ _; simp
    | cons p rest ih =>
        intro acc hsub hacc
        have hp := hps p (hsub p (List.mem_cons_self p rest))
        have hidx : ∀ ch ∈ update_cells g.reset p, ch.idx < acc.cells.length := by
          intro ch hch
          rw [hacc]
          have := update_cells_idx_lt g.reset p
          rw [reset_width] at this
          exact this hp.1 hp.2.1 hp.2.2.1 hp.2.2.2 hw64 ch hch
        obtain ⟨hmass, hlen2⟩ := foldl_apply_change (update_cells g.reset p) acc hidx
        rw [List.foldl_cons,
          ih ((update_cells g.reset p).foldl apply_change acc)
            (fun q hq => hsub q (List.mem_cons_of_mem p hq)) (by rw [hlen2, hacc]),
          hmass, update_cells_dm_sum]
        simp [add_assoc]
  rw [key ps g.reset (fun p hp => hp) (by rw [reset_cells_length, hlen]),
    totalMass_reset, zero_add]

/-- Witness for C5: one particle of mass 5 at (2, 2) on a reset 4x4 grid. -/
theorem c5_mass_conservation_witness :
    ((Grid.new 4 : Grid ℚ).cells.length = (Grid.new 4 : Grid ℚ).width * (Grid.new 4 : Grid ℚ).width
      ∧ (Grid.new 4 : Grid ℚ).width ≤ 2 ^ 64
      ∧ (1 : ℚ) ≤ 2 ∧ (2 : ℚ) < ((Grid.new 4 : Grid ℚ).width : ℚ) - 1)
    ∧ totalMass (scatter_then_apply (Grid.new 4 : Grid ℚ).reset
        [(⟨⟨2, 2⟩, ⟨0, 0⟩, 5, Mat2.zero⟩ : Particle)])
      = ([(⟨⟨2, 2⟩, ⟨0, 0⟩, 5, Mat2.zero⟩ : Particle)].map Particle.mass).sum :=
  ⟨⟨by decide, by decide, by norm_num, by norm_num [Grid.new]⟩,
    c5_mass_conservation (Grid.new 4)
      [(⟨⟨2, 2⟩, ⟨0, 0⟩, 5, Mat2.zero⟩ : Particle)]
      (by decide) (by decide)
      (by
        intro p hp
        rw [List.mem_singleton] at hp
        rw [hp]
        norm_num [Grid.new])⟩

lemma weights_nonneg (cd : Vec2 ℚ)
    (hx1 : -(1/2 : ℚ) ≤ cd.x) (hx2 : cd.x ≤ 1/2)
    (hy1 : -(1/2 : ℚ) ≤ cd.y) (hy2 : cd.y ≤ 1/2) :
    ∀ i : Fin 3, 0 ≤ (quadratic_interpolation_weights cd i).x
      ∧ 0 ≤ (quadratic_interpolation_weights cd i).y := by
  intro i
  fin_cases i <;>
    constructor <;>
    simp only [quadratic_interpolation_weights, Fin.zero_eta, Fin.mk_one, Fin.reduceFinMk,
      Matrix.cons_val_zero, Matrix.cons_val_one,
      Matrix.head_cons, Matrix.cons_val_two, Matrix.tail_cons] <;>
    nlinarith [sq_nonneg ((1/2 : ℚ) - cd.x), sq_nonneg ((1/2 : ℚ) + cd.x),
      sq_nonneg ((1/2 : ℚ) - cd.y), sq_nonneg ((1/2 : ℚ) + cd.y),
      mul_nonneg (by linarith : (0:ℚ) ≤ 1/2 - cd.x) (by linarith : (0:ℚ) ≤ 1/2 + cd.x),
      mul_nonneg (by linarith : (0:ℚ) ≤ 1/2 - cd.y) (by linarith : (0:ℚ) ≤ 1/2 + cd.y)]

lemma cell_diff_bounds (q : ℚ) (hq : 0 ≤ q) :
    -(1/2 : ℚ) ≤ q - (u32_cast q : ℚ) - 1/2 ∧ q - (u32_cast q : ℚ) - 1/2 ≤ 1/2 := by
  have h0 : (0 : ℤ) ≤ ⌊q⌋ := Int.floor_nonneg.mpr hq
  have hcast : ((u32_cast q : ℕ) : ℚ) = ((⌊q⌋ : ℤ) : ℚ) := by
    unfold u32_cast
    exact_mod_cast congrArg (fun z => ((z : ℤ) : ℚ)) (Int.toNat_of_nonneg h0)
  have hf1 : ((⌊q⌋ : ℤ) : ℚ) ≤ q := Int.floor_le q
  have hf2 : q < ((⌊q⌋ : ℤ) : ℚ) + 1 := Int.lt_floor_add_one q
  rw [hcast]
  constructor <;> linarith

lemma contrib_dm_nonneg (g : Grid ℚ) (p : Particle) (gx gy : Fin 3)
    (hm : 0 ≤ p.mass) (hx : 0 ≤ p.position.x) (hy : 0 ≤ p.position.y) :
    0 ≤ (update_cells_contrib g p gx gy).dm := by
  obtain ⟨hx1, hx2⟩ := cell_diff_bounds p.position.x hx
  obtain ⟨hy1, hy2⟩ := cell_diff_bounds p.position.y hy
  have hw := weights_nonneg (cell_diff_of p.position) hx1 hx2 hy1 hy2
  show 0 ≤ (quadratic_interpolation_weights (cell_diff_of p.position) gx).x
      * (quadratic_interpolation_weights (cell_diff_of p.position) gy).y * p.mass
  exact mul_nonneg (mul_nonneg (hw gx).1 (hw gy).2) hm

lemma apply_change_mass_nonneg (g : Grid ℚ) (ch : GridMassAndMomentumChange)
    (hdm : 0 ≤ ch.dm) (hg : ∀ c ∈ g.cells, 0 ≤ c.mass) :
    ∀ c ∈ (apply_change g ch).cells, 0 ≤ c.mass := by
  intro c hc
  rw [List.mem_iff_getElem?] at hc
  obtain ⟨j, hj⟩ := hc
  simp only [apply_change] at hj
  rw [List.getElem?_modify] at hj
  cases hgj : g.cells[j]? with
  | none => rw [hgj] at hj; simp at hj
  | some d =>
      have hd : d ∈ g.cells := by
        rw [List.mem_iff_getElem?]
        exact ⟨j, hgj⟩
      rw [hgj] at hj
      simp only [Option.map_some, Option.some.injEq] at hj
      by_cases hij : ch.idx = j
      · rw [if_pos hij] at hj
        rw [← hj]
        have := hg d hd
        simp only []
        linarith
      · rw [if_neg hij] at hj
        rw [← hj]
        exact hg d hd

lemma foldl_apply_change_mass_nonneg (buf : List GridMassAndMomentumChange) :
    ∀ (g : Grid ℚ), (∀ ch ∈ buf, 0 ≤ ch.dm) → (∀ c ∈ g.cells, 0 ≤ c.mass) →
      ∀ c ∈ (buf.foldl apply_change g).cells, 0 ≤ c.mass := by
  induction buf with
  | nil => intro g _ hg; simpa using hg
  | cons ch rest ih =>
      intro g hdm hg
      rw [List.foldl_cons]
      exact ih (apply_change g ch)
        (fun c hc => hdm c (List.mem_cons_of_mem ch hc))
        (apply_change_mass_nonneg g ch (hdm ch (List.mem_cons_self ch rest)) hg)

/-- C10: for cell_diff in [-1/2, 1/2]^2 all six weight components are
nonnegative; hence every per-cell mass contribution of the scatter stage is
nonnegative for a particle with nonnegative mass (and in-grid, nonnegative
position); and applying any buffers of nonnegative mass deltas to a grid whose
cell masses are nonnegative keeps every cell mass nonnegative. -/
theorem c10_mass_nonneg :
    (∀ cd : Vec2 ℚ, -(1/2 : ℚ) ≤ cd.x → cd.x ≤ 1/2 → -(1/2 : ℚ) ≤ cd.y → cd.y ≤ 1/2 →
      ∀ i : Fin 3, 0 ≤ (quadratic_interpolation_weights cd i).x
        ∧ 0 ≤ (quadratic_interpolation_weights cd i).y)
    ∧ (∀ (g : Grid ℚ) (p : Particle), 0 ≤ p.mass → 0 ≤ p.position.x → 0 ≤ p.position.y →
      ∀ ch ∈ update_cells g p, 0 ≤ ch.dm)
    ∧ (∀ (g : Grid ℚ) (buffers : List (List GridMassAndMomentumChange)),
      (∀ buf ∈ buffers, ∀ ch ∈ buf, 0 ≤ ch.dm) → (∀ c ∈ g.cells, 0 ≤ c.mass) →
      ∀ c ∈ (apply_update_cell_computations g buffers).cells, 0 ≤ c.mass) := by
  refine ⟨fun cd hx1 hx2 hy1 hy2 => weights_nonneg cd hx1 hx2 hy1 hy2, ?_, ?_⟩
  · intro g p hm hx hy ch hch
    simp only [update_cells, List.mem_cons, List.not_mem_nil, or_false] at hch
    rcases hch with h | h | h | h | h | h | h | h | h <;> rw [h] <;>
      exact contrib_dm_nonneg g p _ _ hm hx hy
  · intro g buffers
    induction buffers generalizing g with
    | nil => intro _ hg; simpa [apply_update_cell_computations] using hg
    | cons buf rest ih =>
        intro hbuf hg
        simp only [apply_update_cell_computations, List.foldl_cons] at ih ⊢
        exact ih (buf.foldl apply_change g)
          (fun b hb => hbuf b (List.mem_cons_of_mem buf hb))
          (foldl_apply_change_mass_nonneg buf g
            (hbuf buf (List.mem_cons_self buf rest)) hg)

/-- Witness for C10 at cell_diff (0, 0), a unit-mass particle at (2, 2) on a
4x4 grid, and the empty buffer list applied to a fresh 2x2 grid. -/
theorem c10_mass_nonneg_witness :
    ((-(1/2 : ℚ) ≤ (0 : ℚ) ∧ (0 : ℚ) ≤ 1/2)
      ∧ (0 : ℚ) ≤ 1 ∧ (0 : ℚ) ≤ 2)
    ∧ 0 ≤ (quadratic_interpolation_weights (⟨0, 0⟩ : Vec2 ℚ) 1).x
    ∧ 0 ≤ (update_cells_contrib (Grid.new 4) (⟨⟨2, 2⟩, ⟨0, 0⟩, 1, Mat2.zero⟩ : Particle) 0 0).dm
    ∧ 0 ≤ (({ velocity := Vec2.zero, mass := 0 } : Cell ℚ)).mass :=
  ⟨⟨⟨by norm_num, by norm_num⟩, by norm_num, by norm_num⟩,
    (c10_mass_nonneg.1 ⟨0, 0⟩ (by norm_num) (by norm_num) (by norm_num) (by norm_num) 1).1,
    c10_mass_nonneg.2.1 (Grid.new 4) ⟨⟨2, 2⟩, ⟨0, 0⟩, 1, Mat2.zero⟩
      (by norm_num) (by norm_num) (by norm_num)
      (update_cells_contrib (Grid.new 4) ⟨⟨2, 2⟩, ⟨0, 0⟩, 1, Mat2.zero⟩ 0 0)
      (by simp [update_cells]),
    c10_mass_nonneg.2.2 (Grid.new 2) [] (by simp)
      (by
        intro c hc
        simp only [Grid.new, List.mem_replicate] at hc
        rw [hc.2])
      { velocity := Vec2.zero, mass := 0 }
      (by
        show _ ∈ (apply_update_cell_computations (Grid.new 2) []).cells
        simp [apply_update_cell_computations, Grid.new, List.mem_replicate])⟩

end MlsMpm
